import Mathlib

/-!
Verification of the mulsoc RPC layers: the forked-process RPC bridge
(rpcbridge.py) and the network RPC protocol (netrpc.py).

Modelling conventions.  Byte strings are lists of naturals; machine
integers are Nat/Int with explicit reductions modulo 2^w.  The cPickle
payload codec of netrpc.py is treated as an opaque byte string by the
frame parser (which never inspects payload bytes), and as a structured
triple where the code manipulates decoded values.  `struct.pack` with an
out-of-range value raises `struct.error` in the Python 2.7 runtime this
code targets; those raise paths are modelled with `Except`.
-/

/-! ## Byte-level codecs -/

/-- `struct.pack('!H', n)`: 2-byte big-endian unsigned encoding. -/
def toBE2 (n : Nat) : List Nat := [n / 256 % 256, n % 256]

/-- `struct.unpack('!H', d)[0]` on a buffer whose first two bytes are given. -/
def unBE2 (l : List Nat) : Nat :=
  match l with
  | b0 :: b1 :: _ => 256 * b0 + b1
  | _ => 0

theorem toBE2_length (n : Nat) : (toBE2 n).length = 2 := rfl

theorem unBE2_toBE2 (n : Nat) (h : n < 65536) : unBE2 (toBE2 n) = n := by
  simp only [toBE2, unBE2]
  omega

/-- `struct.pack('I', n)` in native byte order on the little-endian hosts
this Python 2 code runs on (x86): 4-byte little-endian unsigned. -/
def toLE4 (n : Nat) : List Nat :=
  [n % 256, n / 256 % 256, n / 65536 % 256, n / 16777216 % 256]

/-- 4-byte big-endian unsigned encoding (the byte order the spec asserts). -/
def toBE4 (n : Nat) : List Nat := (toLE4 n).reverse

/-- `struct.pack('i', i)` native order on a little-endian host:
4-byte little-endian two's complement. -/
def intLE4 (i : Int) : List Nat := toLE4 ((i % (4294967296 : Int)).toNat)

/-- 4-byte big-endian two's complement. -/
def intBE4 (i : Int) : List Nat := (intLE4 i).reverse

/-! ## List helpers -/

theorem take_append_le {α : Type} (n : Nat) (l r : List α) (h : n ≤ l.length) :
    (l ++ r).take n = l.take n := by
  induction l generalizing n with
  | nil =>
    simp only [List.length_nil, Nat.le_zero] at h
    simp [h]
  | cons a t ih =>
    cases n with
    | zero => rfl
    | succ m =>
      simp only [List.cons_append, List.take_succ_cons]
      rw [ih]
      simpa using h

theorem drop_append_le {α : Type} (n : Nat) (l r : List α) (h : n ≤ l.length) :
    (l ++ r).drop n = l.drop n ++ r := by
  induction l generalizing n with
  | nil =>
    simp only [List.length_nil, Nat.le_zero] at h
    simp [h]
  | cons a t ih =>
    cases n with
    | zero => rfl
    | succ m =>
      simp only [List.cons_append, List.drop_succ_cons]
      rw [ih]
      simpa using h

/-! ## rpcbridge.py: the forked-bridge call stub and its wire encoding

`RemoteProcedureCall.__call__` (rpcbridge.py) checks the argument count
against the registered count (when one was registered), checks that every
argument is an `int` or a `str`, and then emits
`pack('II', code, len(argv))` followed by one `pack('Ii', tag, value)`
record per argument, with a string's bytes appended after its record.
The `struct` format strings carry no byte-order prefix, so the integers
are packed in native byte order (little-endian on the hosts involved),
unlike the `'!H'` format used by netrpc.py. -/

/-- Bridge argument values: the bridge restricts RPC arguments to Python
`int` and `str` (`RemoteProcedureCall.__call__`, rpcbridge.py). -/
inductive BArg where
  | int (i : Int)
  | str (s : List Nat)
deriving DecidableEq

/-- `RPC_ARG_STR, RPC_ARG_INT = range(2)` (rpcbridge.py). -/
def RPC_ARG_STR : Nat := 0

def RPC_ARG_INT : Nat := 1

inductive BridgeErr where
  /-- `TypeError("Expecting %i arguments, not %i")` -/
  | arity
  /-- `struct.error` from a value outside the range of its format code -/
  | packRange
deriving DecidableEq

/-- `pack('I', n)` with the py2.7 range check. -/
def packU32 (n : Nat) : Except BridgeErr (List Nat) :=
  if n < 4294967296 then .ok (toLE4 n) else .error .packRange

/-- `pack('i', i)` with the py2.7 range check. -/
def packI32 (i : Int) : Except BridgeErr (List Nat) :=
  if -2147483648 ≤ i ∧ i < 2147483648 then .ok (intLE4 i) else .error .packRange

/-- Sequencing of fallible byte producers: Python exception propagation.
`exBind e f` runs `f` on the bytes of `e` unless `e` raised. -/
def exBind {e a b : Type} (x : Except e a) (f : a -> Except e b) : Except e b :=
  match x with
  | .error err => .error err
  | .ok v => f v

theorem exBind_ok {e a b : Type} (v : a) (f : a -> Except e b) :
    exBind (Except.ok v : Except e a) f = f v := rfl

theorem exBind_error {e a b : Type} (err : e) (f : a -> Except e b) :
    exBind (Except.error err : Except e a) f = .error err := rfl

/-- `pack('II', a, b)` (native byte order, no padding: both fields are
4-byte aligned, `calcsize('II') = 8`). -/
def packII (a b : Nat) : Except BridgeErr (List Nat) :=
  exBind (packU32 a) fun x => exBind (packU32 b) fun y => .ok (x ++ y)

/-- `pack('Ii', t, v)` (native byte order, `calcsize('Ii') = 8`). -/
def packIi (t : Nat) (v : Int) : Except BridgeErr (List Nat) :=
  exBind (packU32 t) fun x => exBind (packI32 v) fun y => .ok (x ++ y)

/-- The bytes one loop iteration of `RemoteProcedureCall.__call__`
(rpcbridge.py) appends to `crq`: `pack('Ii', RPC_ARG_STR, len(a)) + a`
for a string, `pack('Ii', RPC_ARG_INT, a)` for an integer. -/
def bridgeRecord : BArg -> Except BridgeErr (List Nat)
  | .str s => exBind (packIi RPC_ARG_STR (s.length : Int)) fun r => .ok (r ++ s)
  | .int i => packIi RPC_ARG_INT i

/-- The argument-encoding loop of `RemoteProcedureCall.__call__`
(rpcbridge.py): `crq` accumulates the request bytes. -/
def bridgeEncodeArgs : List BArg -> List Nat -> Except BridgeErr (List Nat)
  | [], crq => .ok crq
  | a :: t, crq => exBind (bridgeRecord a) fun r => bridgeEncodeArgs t (crq ++ r)

/-- The header-then-arguments part of `RemoteProcedureCall.__call__`
(rpcbridge.py): `crq = pack('II', code, len(argv))`, then the loop. -/
def bridgeCallBody (code : Nat) (argv : List BArg) : Except BridgeErr (List Nat) :=
  exBind (packII code argv.length) fun crq => bridgeEncodeArgs argv crq

/-- `RemoteProcedureCall.__call__` (rpcbridge.py): the bytes handed to
`self.rpcbridge.send`.  `argc = none` models `self.args is None`
(variable arguments); the per-argument `type(...) is int/str` check
always passes here because `BArg` has exactly those two shapes. -/
def bridgeCall (code : Nat) (argc : Option Nat) (argv : List BArg) :
    Except BridgeErr (List Nat) :=
  match argc with
  | some n => if argv.length ≠ n then .error .arity else bridgeCallBody code argv
  | Option.none => bridgeCallBody code argv

/-- Modelled from the spec's wording for claim comparison: one argument
record in the spec §6 grammar, in the big-endian order the spec asserts. -/
def specRecordBE : BArg → List Nat
  | .str s => toBE4 RPC_ARG_STR ++ intBE4 (s.length : Int) ++ s
  | .int i => toBE4 RPC_ARG_INT ++ intBE4 i

/-- Modelled from the spec's wording: the full call request of spec §6 in
big-endian order (header of call code and argument count, then records). -/
def specWireBE (code : Nat) (argv : List BArg) : List Nat :=
  toBE4 code ++ toBE4 argv.length ++ argv.flatMap specRecordBE

/-- The spec §6 record grammar with the byte order corrected to the
little-endian native order the code actually uses. -/
def specRecordLE : BArg → List Nat
  | .str s => toLE4 RPC_ARG_STR ++ intLE4 (s.length : Int) ++ s
  | .int i => toLE4 RPC_ARG_INT ++ intLE4 i

/-- The spec §6 call-request grammar with little-endian fields. -/
def specWireLE (code : Nat) (argv : List BArg) : List Nat :=
  toLE4 code ++ toLE4 argv.length ++ argv.flatMap specRecordLE

/-- Range conditions under which none of the `struct.pack` calls of one
argument record raises. -/
def bargInRange : BArg → Prop
  | .int i => -2147483648 ≤ i ∧ i < 2147483648
  | .str s => (s.length : Int) < 2147483648

instance : (a : BArg) → Decidable (bargInRange a)
  | .int i => inferInstanceAs (Decidable (-2147483648 ≤ i ∧ i < 2147483648))
  | .str s => inferInstanceAs (Decidable ((s.length : Int) < 2147483648))

theorem packU32_ok (n : Nat) (h : n < 4294967296) : packU32 n = .ok (toLE4 n) := by
  simp only [packU32, if_pos h]

theorem packI32_ok (i : Int) (h : -2147483648 ≤ i ∧ i < 2147483648) :
    packI32 i = .ok (intLE4 i) := by
  simp only [packI32, if_pos h]

theorem packIi_ok (t : Nat) (v : Int) (ht : t < 4294967296)
    (hv : -2147483648 ≤ v ∧ v < 2147483648) :
    packIi t v = .ok (toLE4 t ++ intLE4 v) := by
  simp only [packIi, packU32_ok t ht, packI32_ok v hv, exBind_ok]

theorem bridgeEncodeArgs_nil (crq : List Nat) : bridgeEncodeArgs [] crq = .ok crq := rfl

theorem bridgeEncodeArgs_cons (a : BArg) (t : List BArg) (crq r : List Nat)
    (h : bridgeRecord a = .ok r) :
    bridgeEncodeArgs (a :: t) crq = bridgeEncodeArgs t (crq ++ r) := by
  rw [show bridgeEncodeArgs (a :: t) crq =
        exBind (bridgeRecord a) (fun r => bridgeEncodeArgs t (crq ++ r)) from rfl,
      h, exBind_ok]

theorem bridgeRecord_ok (a : BArg) (ha : bargInRange a) :
    bridgeRecord a = .ok (specRecordLE a) := by
  cases a with
  | str s =>
    have hs : -2147483648 ≤ (s.length : Int) ∧ (s.length : Int) < 2147483648 := by
      have : (0 : Int) ≤ (s.length : Int) := Int.ofNat_nonneg s.length
      exact ⟨by omega, ha⟩
    rw [show bridgeRecord (BArg.str s) =
          exBind (packIi RPC_ARG_STR (s.length : Int)) (fun r => .ok (r ++ s)) from rfl,
        packIi_ok RPC_ARG_STR _ (by norm_num [RPC_ARG_STR]) hs, exBind_ok]
    simp [specRecordLE, RPC_ARG_STR, List.append_assoc]
  | int i =>
    have hi : -2147483648 ≤ i ∧ i < 2147483648 := ha
    rw [show bridgeRecord (BArg.int i) = packIi RPC_ARG_INT i from rfl,
        packIi_ok RPC_ARG_INT i (by norm_num [RPC_ARG_INT]) hi]
    simp [specRecordLE, RPC_ARG_INT]

theorem bridgeEncodeArgs_ok (argv : List BArg) (crq : List Nat)
    (h : ∀ a ∈ argv, bargInRange a) :
    bridgeEncodeArgs argv crq = .ok (crq ++ argv.flatMap specRecordLE) := by
  induction argv generalizing crq with
  | nil => rw [bridgeEncodeArgs_nil]; simp
  | cons a t ih =>
    have ha : bargInRange a := h a (List.mem_cons_self a t)
    have ht : ∀ b ∈ t, bargInRange b := fun b hb => h b (List.mem_cons_of_mem a hb)
    rw [bridgeEncodeArgs_cons a t crq _ (bridgeRecord_ok a ha), ih _ ht]
    simp [List.append_assoc]

/-- Claim C1 (corrected byte order): for a bridge call whose arguments
pass the stub's checks and whose integers fit the packed formats, the
bytes passed to `send` are a header of two 32-bit unsigned integers (call
code, then argument count) followed by one record per argument — a 4-byte
tag (0 = string, 1 = integer) and a 4-byte signed value, a string's raw
bytes following its tag+length pair — but all fixed-width fields are in
the native little-endian byte order (`pack('II')`/`pack('Ii')` carry no
`'!'` modifier), not big-endian as the spec asserts. -/
theorem bridge_wire_format (code : Nat) (argc : Option Nat) (argv : List BArg)
    (hcode : code < 4294967296) (hlen : argv.length < 4294967296)
    (hargc : ∀ n, argc = some n → argv.length = n)
    (hargs : ∀ a ∈ argv, bargInRange a) :
    bridgeCall code argc argv = .ok (specWireLE code argv) := by
  have hpack : packII code argv.length = .ok (toLE4 code ++ toLE4 argv.length) := by
    simp only [packII, packU32_ok code hcode, packU32_ok argv.length hlen, exBind_ok]
  have hbody : bridgeCallBody code argv = .ok (specWireLE code argv) := by
    simp only [bridgeCallBody, hpack, exBind_ok]
    rw [bridgeEncodeArgs_ok argv _ hargs]
    simp [specWireLE, List.append_assoc]
  cases argc with
  | none => exact hbody
  | some n =>
    have hn : argv.length = n := hargc n rfl
    rw [show bridgeCall code (some n) argv =
          (if argv.length ≠ n then .error .arity else bridgeCallBody code argv) from rfl,
        if_neg (by omega), hbody]

/-- Witness for `bridge_wire_format`: the spec §8 bridge example — call
code 0 registered with exactly 2 arguments, invoked with `(1, "hi")` —
produces the header `[0][2]` and records `[1][1]`, `[0][2]"hi"`, all
fields little-endian. -/
theorem bridge_wire_format_witness :
    bridgeCall 0 (some 2) [BArg.int 1, BArg.str [104, 105]] =
      .ok (specWireLE 0 [BArg.int 1, BArg.str [104, 105]]) :=
  bridge_wire_format 0 (some 2) [BArg.int 1, BArg.str [104, 105]]
    (by decide) (by decide) (fun n h => by cases h; rfl)
    (by intro a ha; fin_cases ha <;> decide)

/-- Counterexample to claim C1 as stated: with call code 1 and no
arguments (which pass the stub's checks), the emitted header is the
little-endian `[1,0,0,0][0,0,0,0]`, which differs from the big-endian
layout `[0,0,0,1][0,0,0,0]` the claim asserts. -/
theorem bridge_wire_not_bigendian :
    bridgeCall 1 (some 0) [] = .ok (specWireLE 1 [])
      ∧ specWireLE 1 [] ≠ specWireBE 1 []
      ∧ bridgeCall 1 (some 0) [] ≠ .ok (specWireBE 1 []) := by
  refine ⟨rfl, by decide, ?_⟩
  intro h
  rw [show bridgeCall 1 (some 0) [] = .ok (specWireLE 1 []) from rfl] at h
  have : specWireLE 1 [] = specWireBE 1 [] := by
    injection h
  exact absurd this (by decide)

/-! ## netrpc.py: the network call stub (`RemoteProcedureCall`)

`RemoteProcedureCall.__init__` (netrpc.py) builds `arg_lookup`, mapping
each name of `args_r + [n for (n, d) in args_def]` to its position (a
later duplicate overwrites an earlier position).  `__call__` then:
checks every supplied keyword against `arg_lookup` (an unknown name hits
a plain dict lookup and raises `KeyError`; a known name whose position is
already covered positionally raises `TypeError`), fills missing required
positions from keywords, fills default positions from keywords or the
declared defaults, raises `TypeError` when the filled argument list
exceeds `len(args_r) + len(args_def)` without `args_var`, raises
`TypeError` when keywords remain without `args_key`, and finally pickles
`(self.id, tuple(args), keys)`. -/

/-- Values carried by netrpc calls: an opaque pickled value model.
`Val.none` is Python `None`, the absent-value marker. -/
inductive Val where
  | none
  | int (i : Int)
  | str (s : String)
  | bool (b : Bool)
deriving DecidableEq

/-- A netrpc call signature: required names, (name, default) pairs, the
variable-arguments flag and the keyword-arguments flag. -/
structure NetSig where
  args_r : List String
  args_def : List (String × Val)
  args_var : Bool
  args_key : Bool
deriving DecidableEq

/-- `reg_args = self.args_r + map(lambda x: x[0], self.args_def)`. -/
def regArgs (sig : NetSig) : List String :=
  sig.args_r ++ sig.args_def.map Prod.fst

/-- `self.arg_lookup[k]` (netrpc.py `RemoteProcedureCall.__init__`): the
position of `k` in `reg_args`, a later duplicate overwriting an earlier
one, `none` when absent (a plain lookup then raises `KeyError`). -/
def argLookup (sig : NetSig) (k : String) : Option Nat :=
  (regArgs sig).enum.foldl
    (fun acc p => if p.2 == k then some p.1 else acc) Option.none

inductive NetErr where
  /-- Python `KeyError` from `self.arg_lookup[k]` on an unknown name -/
  | keyError (k : String)
  /-- `TypeError("RPC got multiple values for " + k)` -/
  | multipleValues (k : String)
  /-- `TypeError("Expecting %i args, got %i")` raised filling required args -/
  | tooFew
  /-- `TypeError("Expecting %i args, got %i")` raised by the varargs check -/
  | tooMany
  /-- `TypeError("Unexpected keyword arguments")` -/
  | unexpectedKeywords
  /-- `struct.error` from `pack('!H', n)` with `n > 65535` -/
  | structError
deriving DecidableEq

/-- Keyword-dictionary lookup (`keys[k]` / `k in keys`). -/
def assocGet (l : List (String × Val)) (k : String) : Option Val :=
  (l.find? (fun p => p.1 == k)).map Prod.snd

/-- Keyword-dictionary deletion (`del keys[k]`). -/
def assocDel (l : List (String × Val)) (k : String) : List (String × Val) :=
  l.eraseP (fun p => p.1 == k)

/-- The first loop of `__call__`: `for k in keys: if self.arg_lookup[k] <
len(args): raise TypeError(...)` — `nargs` is the count of positional
arguments supplied by the caller. -/
def checkDupKeys (sig : NetSig) (nargs : Nat) :
    List (String × Val) → Except NetErr Unit
  | [] => .ok ()
  | (k, _) :: t =>
    match argLookup sig k with
    | Option.none => .error (.keyError k)
    | some p =>
      if p < nargs then .error (.multipleValues k) else checkDupKeys sig nargs t

/-- The second loop of `__call__`: `for i in xrange(len(args),
len(self.args_r))`, appending `keys[args_r[i]]` and deleting it, raising
`TypeError` when the name is missing.  Called on `args_r.drop len(args)`. -/
def fillRequired : List String → List Val → List (String × Val) →
    Except NetErr (List Val × List (String × Val))
  | [], args, keys => .ok (args, keys)
  | n :: t, args, keys =>
    match assocGet keys n with
    | Option.none => .error .tooFew
    | some v => fillRequired t (args ++ [v]) (assocDel keys n)

/-- The third loop of `__call__`: `for i in xrange(len(args) -
len(self.args_r), len(self.args_def))`, appending the keyword value or
the declared default.  Called on `args_def.drop (len(args) - len(args_r))`. -/
def fillDefaults : List (String × Val) → List Val → List (String × Val) →
    List Val × List (String × Val)
  | [], args, keys => (args, keys)
  | (n, d) :: t, args, keys =>
    match assocGet keys n with
    | Option.none => fillDefaults t (args ++ [d]) keys
    | some v => fillDefaults t (args ++ [v]) (assocDel keys n)

/-- The two final checks of `__call__`: the varargs arity check and the
keyword-arguments check, then the call succeeds with the bound
positionals and the remaining keywords (pickled as `(id, args, keys)`). -/
def netCallFinish (sig : NetSig) (ak : List Val × List (String × Val)) :
    Except NetErr (List Val × List (String × Val)) :=
  if sig.args_r.length + sig.args_def.length < ak.1.length ∧ sig.args_var = false then
    .error .tooMany
  else if ak.2.length ≠ 0 ∧ sig.args_key = false then
    .error .unexpectedKeywords
  else .ok ak

/-- `RemoteProcedureCall.__call__` (netrpc.py): binds `args0` positional
and `keys0` keyword arguments against `sig`, returning the positional
list and residual keyword mapping carried by the encoded payload, or the
first raised error. -/
def netCall (sig : NetSig) (args0 : List Val) (keys0 : List (String × Val)) :
    Except NetErr (List Val × List (String × Val)) :=
  exBind (checkDupKeys sig args0.length keys0) fun _ =>
  exBind (fillRequired (sig.args_r.drop args0.length) args0 keys0) fun ak =>
  netCallFinish sig
    (fillDefaults (sig.args_def.drop (ak.1.length - sig.args_r.length)) ak.1 ak.2)

/-- Claim C7: a network call stub invoked with more positional arguments
than the required-plus-default count fails with the arity `TypeError`
when `args_var` is unset, and succeeds carrying all supplied positionals
(and an empty residual mapping) when `args_var` is set. -/
theorem netrpc_varargs_arity (sig : NetSig) (args0 : List Val)
    (h : sig.args_r.length + sig.args_def.length < args0.length) :
    netCall sig args0 [] =
      if sig.args_var then .ok (args0, []) else .error .tooMany := by
  have h1 : checkDupKeys sig args0.length [] = .ok () := rfl
  have h2 : sig.args_r.drop args0.length = [] :=
    List.drop_eq_nil_of_le (by omega)
  have h3 : sig.args_def.drop (args0.length - sig.args_r.length) = [] :=
    List.drop_eq_nil_of_le (by omega)
  simp only [netCall, h1, exBind_ok, h2]
  rw [show fillRequired [] args0 [] = .ok (args0, []) from rfl, exBind_ok]
  simp only [h3]
  rw [show fillDefaults [] args0 [] = (args0, []) from rfl]
  cases hv : sig.args_var with
  | false =>
    simp only [netCallFinish, if_pos (⟨h, hv⟩ :
      sig.args_r.length + sig.args_def.length < args0.length ∧ sig.args_var = false)]
    simp
  | true =>
    rw [show netCallFinish sig (args0, []) =
          (if sig.args_r.length + sig.args_def.length < args0.length ∧
              sig.args_var = false then
            .error .tooMany
           else if ([] : List (String × Val)).length ≠ 0 ∧ sig.args_key = false then
            .error .unexpectedKeywords
           else .ok (args0, [])) from rfl]
    rw [if_neg (by simp [hv]), if_neg (by simp)]
    simp

/-- Witness for `netrpc_varargs_arity`: a one-required-argument signature
called with two positionals — the varargs flag decides between the arity
error and success with both positionals. -/
theorem netrpc_varargs_arity_witness :
    netCall ⟨["a"], [], false, false⟩ [Val.int 1, Val.int 2] [] = .error .tooMany
      ∧ netCall ⟨["a"], [], true, false⟩ [Val.int 1, Val.int 2] [] =
          .ok ([Val.int 1, Val.int 2], []) := by
  constructor
  · have h := netrpc_varargs_arity ⟨["a"], [], false, false⟩
      [Val.int 1, Val.int 2] (by decide)
    simpa using h
  · have h := netrpc_varargs_arity ⟨["a"], [], true, false⟩
      [Val.int 1, Val.int 2] (by decide)
    simpa using h

/-- Claim C2 (code bug): with the keyword-arguments flag set, an extra
keyword whose name is not among the declared names should be accepted and
carried as the residual mapping; instead the very first loop of
`__call__` evaluates `self.arg_lookup[k]` unconditionally, so the unknown
name raises `KeyError` before the `args_key` flag is ever consulted.  The
signature `(args_r=['a'], args_key=True)` called as `stub(5, b=1)`
produces `KeyError('b')` instead of the documented success. -/
theorem netrpc_kwargs_keyerror :
    netCall ⟨["a"], [], false, true⟩ [Val.int 5] [("b", Val.int 1)] =
      .error (.keyError "b") := by
  rfl

/-! ## netrpc.py: the RPC frame parser (`NetRPCSocket._onRecvRPC`)

State: the byte buffer `self.stream` and `self.next_rpc_size`, which is
`0` when awaiting a header, `-1` when resynchronizing, and the expected
body length otherwise (the code re-uses `0` for both "awaiting header"
and "awaiting a zero-length body").  Each loop iteration optionally
consumes a 2-byte `'!H'` header, or scans for the magic trailer when
resynchronizing, and then checks whether a complete body plus trailer is
buffered; on a trailer match the payload is handed to
`loads`/dispatch (recorded here as the raw payload bytes), on a mismatch
the parser switches to resynchronization.  `isConnected` is modelled as
always true (no dispatched handler closes the connection in the claims
considered), and `next_rpc_size` only ever holds `-1` or an unpacked
header value `≥ 0`. -/

/-- `RPC_MAGIC = '#42!'` (netrpc.py). -/
def RPC_MAGIC : List Nat := [35, 52, 50, 33]

/-- `'\r\n'`, the handshake end-of-line marker. -/
def crlfBytes : List Nat := [13, 10]

/-- Python `str.find(pat)`: index of the first occurrence, `none` for
`-1`. -/
def pyFind (pat : List Nat) : List Nat → Option Nat
  | [] => if pat.isEmpty then some 0 else Option.none
  | x :: t => if pat.isPrefixOf (x :: t) then some 0 else (pyFind pat t).map (· + 1)

/-- Parser state: `self.stream`, `self.next_rpc_size`, and the list of
payload byte strings handed to `loads`/dispatch so far. -/
structure PState where
  stream : List Nat
  nextSize : Int
  dispatched : List (List Nat)
deriving DecidableEq

/-- The state of a freshly established connection. -/
def initP : PState := ⟨[], 0, []⟩

/-- The second half of one `_onRecvRPC` loop iteration: the
`len(self.stream) >= self.next_rpc_size + RPC_MAGIC_LENGTH` check with
expected body length `n`, current buffer `s` and dispatch record `d`.
`Sum.inl` is `continue`, `Sum.inr` is `return True`. -/
def bodyCheck (n : Nat) (s : List Nat) (d : List (List Nat)) : PState ⊕ PState :=
  if n + 4 ≤ s.length then
    if (s.drop n).take 4 = RPC_MAGIC then
      Sum.inl ⟨s.drop (n + 4), 0, d ++ [s.take n]⟩
    else Sum.inl ⟨s, -1, d⟩
  else Sum.inr ⟨s, (n : Int), d⟩

/-- One iteration of the `while self.isConnected()` loop of
`_onRecvRPC`: read a header when awaiting one and two bytes are
buffered, else scan for the magic when resynchronizing, then fall
through to the body-length check. -/
def rpcIter (st : PState) : PState ⊕ PState :=
  if st.nextSize = 0 ∧ 2 ≤ st.stream.length then
    bodyCheck (unBE2 (st.stream.take 2)) (st.stream.drop 2) st.dispatched
  else if st.nextSize = -1 then
    match pyFind RPC_MAGIC st.stream with
    | Option.none => Sum.inr st
    | some x => Sum.inl ⟨st.stream.drop (x + 4), 0, st.dispatched⟩
  else bodyCheck st.nextSize.toNat st.stream st.dispatched

/-- Termination measure for the loop: every `continue` either consumes
buffered bytes or moves from a non-resync tag to the resync tag. -/
def pMeasure (st : PState) : Nat :=
  2 * st.stream.length + (if st.nextSize = -1 then 0 else 1)

/-- Fuel-bounded loop of `_onRecvRPC`. -/
def runP : Nat → PState → PState
  | 0, st => st
  | f + 1, st =>
    match rpcIter st with
    | Sum.inr st1 => st1
    | Sum.inl st1 => runP f st1

/-- The `_onRecvRPC` loop run to completion (the fuel `pMeasure st + 1`
always suffices, `runP_fuel`). -/
def runRPC (st : PState) : PState := runP (pMeasure st + 1) st

/-- `_onRecvRPC(data)`: append to the buffer, then loop. -/
def feedP (st : PState) (data : List Nat) : PState :=
  runRPC ⟨st.stream ++ data, st.nextSize, st.dispatched⟩

theorem runP_succ (f : Nat) (st : PState) :
    runP (f + 1) st =
      match rpcIter st with
      | Sum.inr st1 => st1
      | Sum.inl st1 => runP f st1 := rfl

theorem bodyCheck_inl_measure (n : Nat) (s : List Nat) (d : List (List Nat))
    {st1 : PState} (h : bodyCheck n s d = Sum.inl st1) :
    pMeasure st1 < 2 * s.length + 1 := by
  unfold bodyCheck at h
  split at h
  case isTrue hlen =>
    split at h
    case isTrue hm =>
      cases h
      simp only [pMeasure, List.length_drop]
      rw [if_neg (by decide : ¬((0 : Int) = -1))]
      omega
    case isFalse hm =>
      cases h
      have : pMeasure ⟨s, -1, d⟩ = 2 * s.length := by simp [pMeasure]
      omega
  case isFalse hlen => exact Sum.noConfusion h

theorem pyFind_some_le (pat s : List Nat) (x : Nat) (h : pyFind pat s = some x) :
    x + pat.length ≤ s.length := by
  induction s generalizing x with
  | nil =>
    unfold pyFind at h
    split at h
    case isTrue hp =>
      cases h
      cases pat with
      | nil => simp
      | cons b u => simp [List.isEmpty] at hp
    case isFalse hp => exact Option.noConfusion h
  | cons a t ih =>
    unfold pyFind at h
    split at h
    case isTrue hp =>
      cases h
      have := List.IsPrefix.length_le (List.isPrefixOf_iff_prefix.mp hp)
      simpa using this
    case isFalse hp =>
      cases hf : pyFind pat t with
      | none => rw [hf] at h; exact Option.noConfusion h
      | some y =>
        rw [hf] at h
        simp only [Option.map_some'] at h
        cases h
        have := ih y hf
        simp only [List.length_cons]
        omega

theorem rpcIter_inl_measure {st st1 : PState} (h : rpcIter st = Sum.inl st1) :
    pMeasure st1 < pMeasure st := by
  unfold rpcIter at h
  by_cases h0 : st.nextSize = 0 ∧ 2 ≤ st.stream.length
  · rw [if_pos h0] at h
    have hb := bodyCheck_inl_measure _ _ _ h
    have hlen : (st.stream.drop 2).length = st.stream.length - 2 :=
      List.length_drop 2 st.stream
    have hm : pMeasure st = 2 * st.stream.length + 1 := by
      simp [pMeasure, h0.1]
    omega
  · rw [if_neg h0] at h
    by_cases h1 : st.nextSize = -1
    · rw [if_pos h1] at h
      cases hf : pyFind RPC_MAGIC st.stream with
      | none => rw [hf] at h; exact Sum.noConfusion h
      | some x =>
        rw [hf] at h
        cases h
        have hx := pyFind_some_le RPC_MAGIC st.stream x hf
        have h4 : (RPC_MAGIC : List Nat).length = 4 := rfl
        have hm : pMeasure st = 2 * st.stream.length := by simp [pMeasure, h1]
        have hm1 : pMeasure ⟨st.stream.drop (x + 4), 0, st.dispatched⟩ =
            2 * (st.stream.length - (x + 4)) + 1 := by
          simp [pMeasure]
        rw [hm, hm1]
        omega
    · rw [if_neg h1] at h
      have hb := bodyCheck_inl_measure _ _ _ h
      have hm : pMeasure st = 2 * st.stream.length + 1 := by simp [pMeasure, h1]
      omega

theorem runP_fuel (m : Nat) : ∀ (st : PState), pMeasure st ≤ m →
    ∀ f, pMeasure st < f → runP f st = runP (pMeasure st + 1) st := by
  induction m with
  | zero =>
    intro st hm f hf
    have hm0 : pMeasure st = 0 := Nat.le_zero.mp hm
    simp only [pMeasure] at hm
    split at hm
    case isTrue hn =>
      have hs : st.stream = [] := List.length_eq_zero.mp (by omega)
      have hiter : rpcIter st = Sum.inr st := by
        unfold rpcIter
        rw [if_neg (by simp [hn]), if_pos hn, hs]
        rfl
      obtain ⟨g, rfl⟩ : ∃ g, f = g + 1 := ⟨f - 1, by omega⟩
      rw [hm0, runP_succ, runP_succ, hiter]
    case isFalse hn => omega
  | succ m ih =>
    intro st hm f hf
    obtain ⟨g, rfl⟩ : ∃ g, f = g + 1 := ⟨f - 1, by omega⟩
    rw [runP_succ, runP_succ]
    cases hi : rpcIter st with
    | inr st1 => rfl
    | inl st1 =>
      have hlt := rpcIter_inl_measure hi
      show runP g st1 = runP (pMeasure st) st1
      rw [ih st1 (by omega) g (by omega), ih st1 (by omega) (pMeasure st) (by omega)]

theorem runRPC_inr {st st1 : PState} (h : rpcIter st = Sum.inr st1) :
    runRPC st = st1 := by
  unfold runRPC
  rw [runP_succ, h]

theorem runRPC_inl {st st1 : PState} (h : rpcIter st = Sum.inl st1) :
    runRPC st = runRPC st1 := by
  unfold runRPC
  rw [runP_succ, h]
  exact runP_fuel (pMeasure st1) st1 le_rfl (pMeasure st) (rpcIter_inl_measure h)

theorem runRPC_congr {a b : PState} (h : rpcIter a = rpcIter b) :
    runRPC a = runRPC b := by
  cases hb : rpcIter b with
  | inl st1 => rw [runRPC_inl (h.trans hb), runRPC_inl hb]
  | inr st1 => rw [runRPC_inr (h.trans hb), runRPC_inr hb]

/-! ## netrpc.py: the frame sender (`NetRPCSocket._sendRPC`) -/

/-- `NetRPCSocket._sendRPC` (netrpc.py):
`self.send(pack('!H', len(rpcstr)) + rpcstr + RPC_MAGIC)`, where
`pack('!H', n)` raises `struct.error` for `n > 65535` (standard-size
formats are range-checked). -/
def sendRPCBytes (rpcstr : List Nat) : Except NetErr (List Nat) :=
  if rpcstr.length < 65536 then .ok (toBE2 rpcstr.length ++ rpcstr ++ RPC_MAGIC)
  else .error .structError

theorem take2_BE2 (n : Nat) (x : List Nat) : (toBE2 n ++ x).take 2 = toBE2 n := by
  simp [toBE2]

theorem drop2_BE2 (n : Nat) (x : List Nat) : (toBE2 n ++ x).drop 2 = x := by
  simp [toBE2]

/-- Claim C10: the frame sender encodes the payload length as a 2-byte
big-endian unsigned field; a payload of at most 65535 bytes yields a
frame whose length field decodes to exactly the payload length (followed
by the payload and the magic trailer), and a longer payload raises
`struct.error` instead of emitting a frame with a wrapped length field. -/
theorem netrpc_send_length_field (p : List Nat) :
    (p.length ≤ 65535 →
      sendRPCBytes p = .ok (toBE2 p.length ++ p ++ RPC_MAGIC)
        ∧ unBE2 (toBE2 p.length) = p.length
        ∧ (toBE2 p.length ++ p ++ RPC_MAGIC).take 2 = toBE2 p.length
        ∧ (toBE2 p.length ++ p ++ RPC_MAGIC).drop 2 = p ++ RPC_MAGIC)
    ∧ (65535 < p.length → sendRPCBytes p = .error .structError) := by
  constructor
  · intro h
    exact ⟨by simp only [sendRPCBytes, if_pos (by omega : p.length < 65536)],
      unBE2_toBE2 _ (by omega), take2_BE2 _ _, drop2_BE2 _ _⟩
  · intro h
    simp only [sendRPCBytes, if_neg (by omega : ¬p.length < 65536)]

/-- Witness for `netrpc_send_length_field`: a 2-byte payload emits the
length field `[0, 2]`; a 70000-byte payload raises. -/
theorem netrpc_send_length_field_witness :
    sendRPCBytes [7, 8] = .ok ([0, 2] ++ [7, 8] ++ RPC_MAGIC)
      ∧ sendRPCBytes (List.replicate 70000 0) = .error .structError := by
  constructor
  · exact ((netrpc_send_length_field [7, 8]).1 (by decide)).1
  · exact (netrpc_send_length_field (List.replicate 70000 0)).2
      (by rw [List.length_replicate]; omega)

/-! ## Chunking invariance of the frame parser (claim C3) -/

/-- One well-formed frame: `pack('!H', len(p)) + p + RPC_MAGIC`
(`_sendRPC`, netrpc.py). -/
def frameBytes (p : List Nat) : List Nat := toBE2 p.length ++ p ++ RPC_MAGIC

theorem frameBytes_length (p : List Nat) :
    (frameBytes p).length = 2 + p.length + 4 := by
  simp [frameBytes, toBE2, RPC_MAGIC]
  omega

/-- The parser state after an established connection has received a
prefix `q` of `frameBytes p` from the initial state: waiting for the
header while fewer than 2 bytes arrived, waiting for the body afterwards,
and back to the initial state with `p` dispatched once the frame is
complete. -/
def midState (p q : List Nat) : PState :=
  if q.length < 2 then ⟨q, 0, []⟩
  else if q.length < 2 + p.length + 4 then ⟨q.drop 2, (p.length : Int), []⟩
  else ⟨[], 0, [p]⟩

theorem rpcIter_empty (d : List (List Nat)) :
    rpcIter ⟨[], 0, d⟩ = Sum.inr ⟨[], 0, d⟩ := rfl

theorem rpcIter_body (v : Nat) (hv : 1 ≤ v) (s : List Nat) (d : List (List Nat)) :
    rpcIter ⟨s, (v : Int), d⟩ = bodyCheck v s d := by
  unfold rpcIter
  simp only
  rw [if_neg (by rintro ⟨h1, -⟩; omega), if_neg (by omega)]
  rw [show ((v : Int)).toNat = v from Int.toNat_natCast v]

theorem rpcIter_header (s : List Nat) (d : List (List Nat)) (h2 : 2 ≤ s.length) :
    rpcIter ⟨s, 0, d⟩ = bodyCheck (unBE2 (s.take 2)) (s.drop 2) d := by
  unfold rpcIter
  simp only
  rw [if_pos ⟨trivial, h2⟩]

theorem rpcIter_wait_header (s : List Nat) (d : List (List Nat)) (h : s.length < 2) :
    rpcIter ⟨s, 0, d⟩ = Sum.inr ⟨s, 0, d⟩ := by
  unfold rpcIter
  simp only
  rw [if_neg (by rintro ⟨-, h2⟩; omega), if_neg (by decide)]
  unfold bodyCheck
  rw [if_neg (by rw [show ((0 : Int)).toNat = 0 from rfl]; omega)]
  rfl

/-- Running the loop from the state just after the header of `frameBytes
p` has been consumed: waits when the body and trailer are incomplete,
dispatches `p` exactly when the whole frame is buffered. -/
theorem runBody (p : List Nat) (hp1 : 1 ≤ p.length) (u rest : List Nat)
    (h2 : 2 ≤ u.length) (hdec : u ++ rest = frameBytes p) :
    runRPC ⟨u.drop 2, (p.length : Int), []⟩ = midState p u := by
  have hlen : u.length + rest.length = 2 + p.length + 4 := by
    have := congrArg List.length hdec
    simpa [frameBytes_length] using this
  by_cases hfull : u.length < 2 + p.length + 4
  · -- not all of the frame is buffered: the body check returns
    have hiter : rpcIter ⟨u.drop 2, (p.length : Int), []⟩ =
        Sum.inr ⟨u.drop 2, (p.length : Int), []⟩ := by
      rw [rpcIter_body p.length hp1 _ _]
      unfold bodyCheck
      rw [if_neg (by rw [List.length_drop]; omega)]
    rw [runRPC_inr hiter]
    unfold midState
    rw [if_neg (by omega), if_pos hfull]
  · -- the whole frame is buffered: dispatch
    have hu : u = frameBytes p := by
      have hr : rest = [] := List.length_eq_zero.mp (by omega)
      rw [← hdec, hr, List.append_nil]
    have hdrop : u.drop 2 = p ++ RPC_MAGIC := by
      rw [hu]
      exact drop2_BE2 _ _
    have hmlen : (p ++ RPC_MAGIC).length = p.length + 4 := by simp [RPC_MAGIC]
    have hiter : rpcIter ⟨u.drop 2, (p.length : Int), []⟩ = Sum.inl ⟨[], 0, [p]⟩ := by
      rw [hdrop, rpcIter_body p.length hp1 _ _]
      unfold bodyCheck
      rw [if_pos (by omega)]
      rw [if_pos (by
        rw [drop_append_le p.length p RPC_MAGIC le_rfl, List.drop_length]
        rfl)]
      have h1 : (p ++ RPC_MAGIC).drop (p.length + 4) = [] := by
        apply List.drop_eq_nil_of_le
        omega
      have h2' : (p ++ RPC_MAGIC).take p.length = p := by
        rw [take_append_le p.length p RPC_MAGIC le_rfl, List.take_length]
      rw [h1, h2']
      simp
    rw [runRPC_inl hiter, runRPC_inr (rpcIter_empty [p])]
    unfold midState
    rw [if_neg (by omega), if_neg (by omega)]

/-- Running the loop from an awaiting-header state holding a prefix of
at least the header of `frameBytes p`. -/
theorem runHeader (p : List Nat) (hp1 : 1 ≤ p.length) (hp2 : p.length < 65536)
    (w rest : List Nat) (h2 : 2 ≤ w.length) (hdec : w ++ rest = frameBytes p) :
    runRPC ⟨w, 0, []⟩ = midState p w := by
  have htake : w.take 2 = toBE2 p.length := by
    have h1 : (w ++ rest).take 2 = toBE2 p.length := by
      rw [hdec]
      exact take2_BE2 _ _
    rw [take_append_le 2 w rest h2] at h1
    exact h1
  have hcongr : rpcIter ⟨w, 0, ([] : List (List Nat))⟩ =
      rpcIter ⟨w.drop 2, (p.length : Int), []⟩ := by
    rw [rpcIter_header w [] h2, rpcIter_body p.length hp1 _ _]
    rw [htake, unBE2_toBE2 _ hp2]
  rw [runRPC_congr hcongr]
  exact runBody p hp1 w rest h2 hdec

/-- One delivery step: feeding a further chunk `c` of `frameBytes p` to
the parser state reached after the prefix `q` lands in the state for the
prefix `q ++ c`. -/
theorem feedP_mid (p : List Nat) (hp1 : 1 ≤ p.length) (hp2 : p.length < 65536)
    (q c rest : List Nat) (hdec : (q ++ c) ++ rest = frameBytes p) :
    feedP (midState p q) c = midState p (q ++ c) := by
  have hlen : q.length + c.length + rest.length = 2 + p.length + 4 := by
    have h := congrArg List.length hdec
    simp [frameBytes_length] at h
    omega
  have hqc : (q ++ c).length = q.length + c.length := List.length_append q c
  by_cases hq2 : q.length < 2
  · have hmq : midState p q = ⟨q, 0, []⟩ := by
      unfold midState
      rw [if_pos hq2]
    rw [hmq]
    unfold feedP
    simp only
    by_cases hqc2 : (q ++ c).length < 2
    · rw [runRPC_inr (rpcIter_wait_header (q ++ c) [] hqc2)]
      unfold midState
      rw [if_pos hqc2]
    · exact runHeader p hp1 hp2 (q ++ c) rest (by omega) hdec
  · by_cases hqfull : q.length < 2 + p.length + 4
    · have hmq : midState p q = ⟨q.drop 2, (p.length : Int), []⟩ := by
        unfold midState
        rw [if_neg hq2, if_pos hqfull]
      rw [hmq]
      unfold feedP
      simp only
      rw [show q.drop 2 ++ c = (q ++ c).drop 2 from
        (drop_append_le 2 q c (by omega)).symm]
      exact runBody p hp1 (q ++ c) rest (by omega) hdec
    · have hc1 : c = [] := List.length_eq_zero.mp (by omega)
      have hmq : midState p q = ⟨[], 0, [p]⟩ := by
        unfold midState
        rw [if_neg hq2, if_neg hqfull]
      subst hc1
      rw [hmq]
      unfold feedP
      simp only [List.append_nil]
      rw [runRPC_inr (rpcIter_empty [p])]
      unfold midState
      rw [if_neg (by omega), if_neg (by omega)]

theorem drop_length_append {α : Type} (l r : List α) : (l ++ r).drop l.length = r := by
  rw [drop_append_le l.length l r le_rfl, List.drop_length, List.nil_append]

theorem foldl_feedP_mid (p : List Nat) (hp1 : 1 ≤ p.length) (hp2 : p.length < 65536) :
    ∀ (chunks : List (List Nat)) (q rest : List Nat),
      (q ++ chunks.flatten) ++ rest = frameBytes p →
      List.foldl feedP (midState p q) chunks = midState p (q ++ chunks.flatten) := by
  intro chunks
  induction chunks with
  | nil =>
    intro q rest h
    simp
  | cons c cs ih =>
    intro q rest h
    have h1 : ((q ++ c) ++ cs.flatten) ++ rest = frameBytes p := by
      simpa [List.append_assoc] using h
    have h2 : (q ++ c) ++ (cs.flatten ++ rest) = frameBytes p := by
      simpa [List.append_assoc] using h
    rw [List.foldl_cons, feedP_mid p hp1 hp2 q c (cs.flatten ++ rest) h2,
      ih (q ++ c) rest h1]
    simp [List.append_assoc]

/-- Claim C3 (amended to frames with a non-empty payload, which every
frame carrying an encoded call triple has): delivering the bytes of a
well-formed frame to an established connection's parser in any
succession of chunks dispatches exactly the same call — same payload,
hence the same decoded index, positional arguments and keyword mapping —
as delivering the frame in one piece. -/
theorem frame_chunking_invariance (p : List Nat) (chunks : List (List Nat))
    (hp1 : 1 ≤ p.length) (hp2 : p.length < 65536)
    (hc : chunks.flatten = frameBytes p) :
    List.foldl feedP initP chunks = feedP initP (frameBytes p)
      ∧ (List.foldl feedP initP chunks).dispatched = [p]
      ∧ ∀ (decode : List Nat → Nat × List Val × List (String × Val)),
          (List.foldl feedP initP chunks).dispatched.map decode =
            (feedP initP (frameBytes p)).dispatched.map decode := by
  have hinit : (initP : PState) = midState p [] := by
    unfold initP midState
    rw [if_pos (by simp)]
  have hfull : midState p (frameBytes p) = ⟨[], 0, [p]⟩ := by
    unfold midState
    rw [if_neg (by rw [frameBytes_length]; omega),
      if_neg (by rw [frameBytes_length]; omega)]
  have h1 : List.foldl feedP initP chunks = midState p chunks.flatten := by
    rw [hinit]
    have h := foldl_feedP_mid p hp1 hp2 chunks [] [] (by simp [hc])
    simpa using h
  have h2 : feedP initP (frameBytes p) = midState p (frameBytes p) := by
    rw [hinit]
    have h := feedP_mid p hp1 hp2 [] (frameBytes p) [] (by simp)
    simpa using h
  refine ⟨?_, ?_, ?_⟩
  · rw [h1, h2, hc]
  · rw [h1, hc, hfull]
  · intro decode
    rw [h1, h2, hc]

/-- Witness for `frame_chunking_invariance`: the frame for payload `[5]`
split as `[0] / [1,5,35] / [52,50,33]` (inside the length field, inside
the payload, inside the trailer) dispatches `[5]` exactly as the whole
frame does. -/
theorem frame_chunking_invariance_witness :
    List.foldl feedP initP [[0], [1, 5, 35], [52, 50, 33]] =
        feedP initP (frameBytes [5])
      ∧ (List.foldl feedP initP [[0], [1, 5, 35], [52, 50, 33]]).dispatched =
          [[5]] := by
  have h := frame_chunking_invariance [5] [[0], [1, 5, 35], [52, 50, 33]]
    (by decide) (by decide) (by decide)
  exact ⟨h.1, h.2.1⟩

/-- Counterexample to claim C3 as stated: the syntactically valid frame
with a zero-length payload (`[0,0] + RPC_MAGIC`) dispatches an (empty)
payload when delivered whole, but dispatches nothing when split before
the trailer — the parser cannot distinguish awaiting-header from
awaiting a zero-length body, so the split delivery loses the frame. -/
theorem frame_chunking_zero_cex :
    (feedP initP ([0, 0] ++ RPC_MAGIC)).dispatched = [[]]
      ∧ (List.foldl feedP initP [[0, 0], RPC_MAGIC]).dispatched = []
      ∧ feedP initP ([0, 0] ++ RPC_MAGIC) ≠
          List.foldl feedP initP [[0, 0], RPC_MAGIC] := by
  refine ⟨by decide, by decide, by decide⟩

/-! ## The zero-length-frame behaviour of the parser (claim C9) -/

/-- Counterexample to claim C9 as stated: when the whole zero-length
frame `[0,0] + RPC_MAGIC` is buffered, the parser does check the trailer
and does hand the (empty) payload to the dispatch path in the same loop
iteration that consumed the header, ending back in the initial state —
it does not skip the trailer check for that frame. -/
theorem zero_frame_dispatch_cex :
    feedP initP ([0, 0] ++ RPC_MAGIC) = ⟨[], 0, [[]]⟩ := by decide

/-- Claim C9 (amended): the parser does represent awaiting-header by
`next_rpc_size = 0`; consequently a zero-length frame header that
arrives with fewer than the 4 trailer bytes following it is forgotten
(the state returns to the initial awaiting-header state, no call is
dispatched), and trailer bytes delivered later are consumed as the start
of the next header (`'#4'` decodes to the bogus length 9012); only when
the trailer is already buffered at header-consumption time is it
validated and the empty payload dispatched. -/
theorem zero_frame_behavior :
    initP.nextSize = 0
      ∧ (∀ s : List Nat, s.length < 4 → feedP initP ([0, 0] ++ s) = ⟨s, 0, []⟩)
      ∧ feedP initP [0, 0] = initP
      ∧ feedP (feedP initP [0, 0]) RPC_MAGIC = ⟨[50, 33], 9012, []⟩
      ∧ feedP initP ([0, 0] ++ RPC_MAGIC) = ⟨[], 0, [[]]⟩ := by
  refine ⟨rfl, ?_, by decide, by decide, by decide⟩
  intro s hs
  unfold feedP
  simp only [initP, List.nil_append, List.cons_append]
  have hiter : rpcIter ⟨0 :: 0 :: s, 0, []⟩ = Sum.inr ⟨s, 0, []⟩ := by
    rw [rpcIter_header (0 :: 0 :: s) [] (by simp)]
    rw [show (0 :: 0 :: s).take 2 = [0, 0] from rfl,
      show (0 :: 0 :: s).drop 2 = s from rfl,
      show unBE2 [0, 0] = 0 from rfl]
    unfold bodyCheck
    rw [if_neg (by omega)]
    rfl
  rw [runRPC_inr hiter]

/-- Witness for `zero_frame_behavior`: the header alone, followed by one
byte of the trailer. -/
theorem zero_frame_behavior_witness :
    feedP initP ([0, 0] ++ [35]) = ⟨[35], 0, []⟩ :=
  zero_frame_behavior.2.1 [35] (by decide)

/-! ## Resynchronization (claim C4) -/

/-- Counterexample to claim C4 as stated: a frame whose trailer was
corrupted (`'#42?'` instead of `'#42!'`), followed by one well-formed
frame (payload `[98]`).  Resynchronization scans for the next magic
occurrence, which is the well-formed frame's own trailer; everything up
to and including it is discarded, so the well-formed frame is consumed
without being dispatched: the final state has an empty buffer and an
empty dispatch list. -/
theorem resync_two_frames_cex :
    feedP initP ([0, 1] ++ [97] ++ [35, 52, 50, 63] ++ frameBytes [98]) =
      ⟨[], 0, []⟩ := by decide

/-- Claim C4 (amended): after a corrupted trailer the parser enters
resynchronization and discards everything up to and including the next
occurrence of the magic trailer.  When that first occurrence is the next
well-formed frame's own trailer (as the `hfind` hypothesis states — the
case whenever neither the payloads nor the corrupted trailer contain the
magic), that frame is consumed as the resynchronization anchor, and it
is the frame after it that is parsed and dispatched. -/
theorem resync_anchor_next_frame (p1 c4 p2 p3 : List Nat)
    (h1 : p1.length < 65536) (hc : c4.length = 4) (hcm : c4 ≠ RPC_MAGIC)
    (hp3a : 1 ≤ p3.length) (hp3b : p3.length < 65536)
    (hfind : pyFind RPC_MAGIC (p1 ++ (c4 ++ (frameBytes p2 ++ frameBytes p3))) =
      some (p1.length + 4 + 2 + p2.length)) :
    feedP initP (toBE2 p1.length ++ p1 ++ c4 ++ frameBytes p2 ++ frameBytes p3) =
      ⟨[], 0, [p3]⟩ := by
  unfold feedP
  simp only [initP, List.nil_append, List.append_assoc]
  have hmm1 : ((p1 ++ (c4 ++ (frameBytes p2 ++ frameBytes p3))).drop
      p1.length).take 4 ≠ RPC_MAGIC := by
    rw [drop_append_le p1.length p1 _ le_rfl, List.drop_length, List.nil_append]
    rw [take_append_le 4 c4 _ (by omega)]
    rw [show (4 : Nat) = c4.length from hc.symm, List.take_length]
    exact hcm
  have hb1 : bodyCheck p1.length
      (p1 ++ (c4 ++ (frameBytes p2 ++ frameBytes p3))) [] =
      Sum.inl ⟨p1 ++ (c4 ++ (frameBytes p2 ++ frameBytes p3)), -1, []⟩ := by
    unfold bodyCheck
    have hxlen : (p1 ++ (c4 ++ (frameBytes p2 ++ frameBytes p3))).length =
        p1.length + (4 + ((frameBytes p2).length + (frameBytes p3).length)) := by
      simp [hc]
    rw [if_pos (by rw [hxlen, frameBytes_length]; omega), if_neg hmm1]
  have hh : rpcIter ⟨toBE2 p1.length ++
        (p1 ++ (c4 ++ (frameBytes p2 ++ frameBytes p3))), 0, []⟩ =
      Sum.inl ⟨p1 ++ (c4 ++ (frameBytes p2 ++ frameBytes p3)), -1, []⟩ := by
    rw [rpcIter_header _ [] (by simp [toBE2])]
    rw [take2_BE2, drop2_BE2, unBE2_toBE2 _ h1]
    exact hb1
  rw [runRPC_inl hh]
  have hr : rpcIter ⟨p1 ++ (c4 ++ (frameBytes p2 ++ frameBytes p3)), -1, []⟩ =
      Sum.inl ⟨(p1 ++ (c4 ++ (frameBytes p2 ++ frameBytes p3))).drop
        (p1.length + 4 + 2 + p2.length + 4), 0, []⟩ := by
    unfold rpcIter
    simp only
    rw [if_neg (by rintro ⟨h', -⟩; exact absurd h' (by decide)), if_pos trivial, hfind]
  rw [runRPC_inl hr]
  have hdropX : (p1 ++ (c4 ++ (frameBytes p2 ++ frameBytes p3))).drop
      (p1.length + 4 + 2 + p2.length + 4) = frameBytes p3 := by
    have hsplit : p1 ++ (c4 ++ (frameBytes p2 ++ frameBytes p3)) =
        (p1 ++ c4 ++ toBE2 p2.length ++ p2 ++ RPC_MAGIC) ++ frameBytes p3 := by
      simp [frameBytes, List.append_assoc]
    rw [hsplit]
    have hlen2 : (p1 ++ c4 ++ toBE2 p2.length ++ p2 ++ RPC_MAGIC).length =
        p1.length + 4 + 2 + p2.length + 4 := by
      simp [toBE2, RPC_MAGIC, hc]
      omega
    rw [← hlen2, drop_length_append]
  rw [hdropX]
  rw [runHeader p3 hp3a hp3b (frameBytes p3) []
    (by rw [frameBytes_length]; omega) (by rw [List.append_nil])]
  unfold midState
  rw [if_neg (by rw [frameBytes_length]; omega),
    if_neg (by rw [frameBytes_length]; omega)]

/-- Witness for `resync_anchor_next_frame`: corrupted frame for payload
`[97]`, then the sacrificed frame for `[98]`, then the dispatched frame
for `[99]`. -/
theorem resync_anchor_next_frame_witness :
    feedP initP (toBE2 [97].length ++ [97] ++ [35, 52, 50, 63] ++
        frameBytes [98] ++ frameBytes [99]) = ⟨[], 0, [[99]]⟩ :=
  resync_anchor_next_frame [97] [35, 52, 50, 63] [98] [99]
    (by decide) (by decide) (by decide) (by decide) (by decide) (by decide)

/-! ## netrpc.py: export and import symbol tables (claims C5, C8) -/

/-- One character of the class `[a-zA-Z_]`. -/
def isArgChar (c : Char) : Bool :=
  (decide ('a' ≤ c) && decide (c ≤ 'z')) ||
    (decide ('A' ≤ c) && decide (c ≤ 'Z')) || decide (c = '_')

/-- `rx_arg.match(arg) is not None` with `rx_arg = compile('[a-zA-Z_]+')`
(netrpc.py): `re.match` anchors at the start, so the name must begin
with one word character. -/
def validName (s : String) : Bool :=
  match s.data with
  | [] => false
  | c :: _ => isArgChar c

/-- The argument-name validation loop of `exportRPC` (netrpc.py) over
`reg_args = args_r + map(lambda x: x[0], args_def)`. -/
def sigNamesValid (args_r : List String) (args_def : List (String × Val)) : Bool :=
  (args_r ++ args_def.map Prod.fst).all validName

/-- The export side of one connection: `self.xsymbols` restricted to its
string keys (the reserved `None -> _export_callback` entry is implicit,
so the Python dict size is `xsymbols.length + 1`), `self.rpflist` whose
position 0 holds the reserved control callback, and the control messages
sent.  Handlers have an abstract type `α`. -/
structure XConn (α : Type) where
  xsymbols : List (String × Nat)
  rpflist : List α
  sentCtrl : List (String × List String × List (String × Val) × Bool × Bool)

/-- `NetRPCSocket.__init__`: `rpflist = [self._export_callback]`,
`xsymbols = {None: ...}`. -/
def initX {α : Type} (cb : α) : XConn α := ⟨[], [cb], []⟩

def lookupNat (l : List (String × Nat)) (k : String) : Option Nat :=
  (l.find? (fun q => q.1 == k)).map Prod.snd

/-- `NetRPCSocket.exportRPC` (netrpc.py): validate every argument name
against `rx_arg` (raising `TypeError` first), then either replace the
handler at the index already assigned to `name` or append a fresh entry
with index `len(self.xsymbols)` (the dict size including the reserved
`None` entry), and finally announce the signature with a control call. -/
def exportRPC {α : Type} (st : XConn α) (name : String) (func : α)
    (args_r : List String) (args_def : List (String × Val))
    (args_var args_key : Bool) : Except Unit (XConn α) :=
  if sigNamesValid args_r args_def then
    .ok (match lookupNat st.xsymbols name with
      | some i =>
        ⟨st.xsymbols, st.rpflist.set i func,
          st.sentCtrl ++ [(name, args_r, args_def, args_var, args_key)]⟩
      | Option.none =>
        ⟨st.xsymbols ++ [(name, st.xsymbols.length + 1)], st.rpflist ++ [func],
          st.sentCtrl ++ [(name, args_r, args_def, args_var, args_key)]⟩)
  else .error ()

/-- One registration request: the arguments of one `exportRPC` call. -/
structure XOp (α : Type) where
  name : String
  func : α
  args_r : List String
  args_def : List (String × Val)
  args_var : Bool
  args_key : Bool

/-- Apply one `exportRPC`; a validation `TypeError` leaves the
connection unchanged (the exception is raised before any mutation). -/
def applyX {α : Type} (st : XConn α) (op : XOp α) : XConn α :=
  match exportRPC st op.name op.func op.args_r op.args_def op.args_var op.args_key with
  | .ok st1 => st1
  | .error _ => st

def applyOpsX {α : Type} (st : XConn α) (ops : List (XOp α)) : XConn α :=
  ops.foldl applyX st

/-- An import-table stub (netrpc.py `RemoteProcedureCall`) as stored in
`self.isymbols`: its wire id, the four signature fields, and the
`arg_lookup` cache built by `__init__` (built once at construction;
`_export_callback` never rebuilds it). -/
structure NetStub where
  id : Nat
  args_r : List String
  args_def : List (String × Val)
  args_var : Bool
  args_key : Bool
  arg_lookup : List (String × Nat)
deriving DecidableEq

/-- The `arg_lookup` positions built by `RemoteProcedureCall.__init__`. -/
def buildLookup (args_r : List String) (args_def : List (String × Val)) :
    List (String × Nat) :=
  (args_r ++ args_def.map Prod.fst).enum.map (fun q => (q.2, q.1))

/-- The import side of one connection: `self.isymbols` restricted to its
string keys (the reserved `None -> None` entry is implicit, so the dict
size is `isymbols.length + 1`). -/
structure IConn where
  isymbols : List (String × NetStub)
deriving DecidableEq

/-- In-place update of the stub stored under `k`. -/
def assocUpdate (l : List (String × NetStub)) (k : String)
    (f : NetStub → NetStub) : List (String × NetStub) :=
  l.map (fun q => if q.1 == k then (q.1, f q.2) else q)

/-- `NetRPCSocket._export_callback` (netrpc.py), the reserved index-0
control call: `name = None` invokes `onImport` (second component
`true`); a known name has its stub's four signature fields overwritten
in place; an unknown name gets a fresh stub with id
`len(self.isymbols)`. -/
def exportCallback (ic : IConn) (name : Option String)
    (args_r : List String) (args_def : List (String × Val))
    (args_var args_key : Bool) : IConn × Bool :=
  match name with
  | Option.none => (ic, true)
  | some n =>
    if (ic.isymbols.find? (fun q => q.1 == n)).isSome then
      ({ isymbols := assocUpdate ic.isymbols n (fun s =>
          { s with args_r := args_r, args_def := args_def,
                   args_var := args_var, args_key := args_key }) }, false)
    else
      ({ isymbols := ic.isymbols ++ [(n,
          ⟨ic.isymbols.length + 1, args_r, args_def, args_var, args_key,
            buildLookup args_r args_def⟩)] }, false)

theorem range'_snoc (a n : Nat) :
    List.range' a (n + 1) = List.range' a n ++ [a + n] := by
  induction n generalizing a with
  | zero => rfl
  | succ m ih =>
    rw [show List.range' a (m + 1 + 1) = a :: List.range' (a + 1) (m + 1) from rfl,
      ih (a + 1),
      show List.range' a (m + 1) = a :: List.range' (a + 1) m from rfl,
      show a + (m + 1) = a + 1 + m by omega]
    simp [List.cons_append]

theorem find?_append_some {α : Type} (p : α → Bool) (l r : List α) (x : α)
    (h : l.find? p = some x) : (l ++ r).find? p = some x := by
  induction l with
  | nil => simp [List.find?] at h
  | cons a t ih =>
    rw [List.cons_append]
    by_cases hp : p a
    · rw [List.find?_cons_of_pos _ hp] at h ⊢
      exact h
    · rw [List.find?_cons_of_neg _ hp] at h ⊢
      exact ih h

theorem applyX_eq {α : Type} (st : XConn α) (op : XOp α) :
    applyX st op =
      if sigNamesValid op.args_r op.args_def then
        (match lookupNat st.xsymbols op.name with
          | some i =>
            ⟨st.xsymbols, st.rpflist.set i op.func,
              st.sentCtrl ++ [(op.name, op.args_r, op.args_def, op.args_var, op.args_key)]⟩
          | Option.none =>
            ⟨st.xsymbols ++ [(op.name, st.xsymbols.length + 1)], st.rpflist ++ [op.func],
              st.sentCtrl ++ [(op.name, op.args_r, op.args_def, op.args_var, op.args_key)]⟩)
      else st := by
  unfold applyX exportRPC
  by_cases hv : sigNamesValid op.args_r op.args_def
  · rw [if_pos hv, if_pos hv]
  · rw [if_neg hv, if_neg hv]

/-- The export-table invariant: names map to the dense indices
`1, 2, ...` in registration order, and the dispatch list has one more
entry (the reserved index 0). -/
def xInv {α : Type} (st : XConn α) : Prop :=
  st.xsymbols.map Prod.snd = List.range' 1 st.xsymbols.length
    ∧ st.rpflist.length = st.xsymbols.length + 1

theorem applyX_inv {α : Type} (st : XConn α) (op : XOp α) (h : xInv st) :
    xInv (applyX st op) := by
  rw [applyX_eq]
  by_cases hv : sigNamesValid op.args_r op.args_def
  · rw [if_pos hv]
    cases hl : lookupNat st.xsymbols op.name with
    | some i =>
      exact ⟨h.1, by simp [List.length_set, h.2]⟩
    | none =>
      constructor
      · simp only [List.map_append, List.length_append, List.map_cons, List.map_nil,
          List.length_cons, List.length_nil, h.1]
        rw [range'_snoc]
        simp
        omega
      · simp [h.2]
  · rw [if_neg hv]
    exact h

theorem applyX_lookup_stable {α : Type} (st : XConn α) (op : XOp α)
    (n : String) (i : Nat) (h : lookupNat st.xsymbols n = some i) :
    lookupNat (applyX st op).xsymbols n = some i := by
  rw [applyX_eq]
  by_cases hv : sigNamesValid op.args_r op.args_def
  · rw [if_pos hv]
    cases hl : lookupNat st.xsymbols op.name with
    | some j => exact h
    | none =>
      unfold lookupNat at h ⊢
      cases hf : st.xsymbols.find? (fun q => q.1 == n) with
      | none => rw [hf] at h; exact Option.noConfusion h
      | some q =>
        rw [hf] at h
        rw [find?_append_some _ _ _ q hf]
        exact h
  · rw [if_neg hv]
    exact h

theorem applyOpsX_inv {α : Type} (ops : List (XOp α)) :
    ∀ (st : XConn α), xInv st → xInv (applyOpsX st ops) := by
  induction ops with
  | nil => intro st h; exact h
  | cons op t ih =>
    intro st h
    exact ih (applyX st op) (applyX_inv st op h)

theorem applyOpsX_lookup_stable {α : Type} (ops : List (XOp α)) :
    ∀ (st : XConn α) (n : String) (i : Nat),
      lookupNat st.xsymbols n = some i →
      lookupNat (applyOpsX st ops).xsymbols n = some i := by
  induction ops with
  | nil => intro st n i h; exact h
  | cons op t ih =>
    intro st n i h
    exact ih (applyX st op) n i (applyX_lookup_stable st op n i h)

theorem initX_inv {α : Type} (cb : α) : xInv (initX cb) := by
  constructor <;> rfl

theorem assocUpdate_preserves (l : List (String × NetStub))
    (k : String) (f : NetStub → NetStub)
    (hf : ∀ s, (f s).id = s.id ∧ (f s).arg_lookup = s.arg_lookup) :
    (assocUpdate l k f).map (fun q => (q.1, q.2.id, q.2.arg_lookup)) =
      l.map (fun q => (q.1, q.2.id, q.2.arg_lookup)) := by
  induction l with
  | nil => rfl
  | cons q t ih =>
    unfold assocUpdate at ih ⊢
    simp only [List.map_cons]
    rw [ih]
    by_cases hq : q.1 == k
    · rw [if_pos hq]
      simp [(hf q.2).1, (hf q.2).2]
    · rw [if_neg hq]

/-- Claim C5: export-table indices are assigned densely in registration
order starting after the reserved index 0 (`xsymbols.map snd` is exactly
`[1, 2, ...]` and `rpflist` has one extra slot for index 0); an index,
once assigned to a name, survives any further registrations (never
reused); re-registering an existing name replaces that index's handler
without creating a new index and announces the new signature; and on the
peer, `_export_callback` for a known name overwrites the import stub's
four signature fields in place, leaving every entry's name, id and
position — and the stub's cached `arg_lookup` — unchanged. -/
theorem netrpc_export_table_invariants :
    (∀ (α : Type) (cb : α) (ops : List (XOp α)),
      (applyOpsX (initX cb) ops).xsymbols.map Prod.snd =
          List.range' 1 (applyOpsX (initX cb) ops).xsymbols.length
        ∧ (applyOpsX (initX cb) ops).rpflist.length =
            (applyOpsX (initX cb) ops).xsymbols.length + 1)
    ∧ (∀ (α : Type) (cb : α) (ops more : List (XOp α)) (n : String) (i : Nat),
        lookupNat (applyOpsX (initX cb) ops).xsymbols n = some i →
        lookupNat (applyOpsX (initX cb) (ops ++ more)).xsymbols n = some i)
    ∧ (∀ (α : Type) (st : XConn α) (name : String) (func : α)
        (ar : List String) (ad : List (String × Val)) (av ak : Bool) (i : Nat),
        sigNamesValid ar ad = true → lookupNat st.xsymbols name = some i →
        exportRPC st name func ar ad av ak =
          .ok ⟨st.xsymbols, st.rpflist.set i func,
            st.sentCtrl ++ [(name, ar, ad, av, ak)]⟩)
    ∧ (∀ (ic : IConn) (n : String) (ar : List String) (ad : List (String × Val))
        (av ak : Bool),
        (ic.isymbols.find? (fun q => q.1 == n)).isSome = true →
        exportCallback ic (some n) ar ad av ak =
          (⟨assocUpdate ic.isymbols n (fun s =>
            { s with args_r := ar, args_def := ad, args_var := av, args_key := ak })⟩,
            false))
    ∧ (∀ (l : List (String × NetStub)) (k : String) (ar : List String)
        (ad : List (String × Val)) (av ak : Bool),
        (assocUpdate l k (fun s =>
            { s with args_r := ar, args_def := ad, args_var := av,
                     args_key := ak })).map
            (fun q => (q.1, q.2.id, q.2.arg_lookup)) =
          l.map (fun q => (q.1, q.2.id, q.2.arg_lookup))) := by
  refine ⟨?_, ?_, ?_, ?_, ?_⟩
  · intro α cb ops
    exact applyOpsX_inv ops (initX cb) (initX_inv cb)
  · intro α cb ops more n i h
    rw [show applyOpsX (initX cb) (ops ++ more) =
          applyOpsX (applyOpsX (initX cb) ops) more from List.foldl_append ..]
    exact applyOpsX_lookup_stable more (applyOpsX (initX cb) ops) n i h
  · intro α st name func ar ad av ak i h1 h2
    unfold exportRPC
    rw [if_pos h1, h2]
  · intro ic n ar ad av ak h
    have heq : exportCallback ic (some n) ar ad av ak =
        (if (ic.isymbols.find? (fun q => q.1 == n)).isSome = true then
          ((⟨assocUpdate ic.isymbols n (fun s =>
            { s with args_r := ar, args_def := ad, args_var := av,
                     args_key := ak })⟩ : IConn), false)
        else
          ((⟨ic.isymbols ++ [(n, ⟨ic.isymbols.length + 1, ar, ad, av, ak,
            buildLookup ar ad⟩)]⟩ : IConn), false)) := rfl
    rw [heq, if_pos h]
  · intro l k ar ad av ak
    exact assocUpdate_preserves l k _ (fun s => ⟨rfl, rfl⟩)

/-- Witness for `netrpc_export_table_invariants`: replacing the handler
of the already-exported name `"f"` (index 1) rewrites `rpflist[1]`
without touching the table, and the peer's control-call handler updates
the `"f"` stub's signature fields in place (same id 1, same cached
lookup). -/
theorem netrpc_export_table_invariants_witness :
    exportRPC (⟨[("f", 1)], [0, 10], []⟩ : XConn Nat) "f" 11 ["a"] [] false false =
        .ok ⟨[("f", 1)], [0, 11], [("f", ["a"], [], false, false)]⟩
      ∧ exportCallback ⟨[("f", ⟨1, ["a"], [], false, false, buildLookup ["a"] []⟩)]⟩
          (some "f") ["b"] [] true true =
        (⟨[("f", ⟨1, ["b"], [], true, true, buildLookup ["a"] []⟩)]⟩, false) := by
  constructor
  · exact netrpc_export_table_invariants.2.2.1 Nat ⟨[("f", 1)], [0, 10], []⟩
      "f" 11 ["a"] [] false false 1 (by decide) (by decide)
  · exact netrpc_export_table_invariants.2.2.2.1
      ⟨[("f", ⟨1, ["a"], [], false, false, buildLookup ["a"] []⟩)]⟩
      "f" ["b"] [] true true (by decide)

/-! ## netrpc.py: the authentication handshake (claims C6, C8) -/

/-- Events observable on a connection: handshake bytes sent, the
`onExport` / `onImport` hooks, a call triple pickled and framed for
sending, the `onAuthFail` notification, and `close()`. -/
inductive HsEvent where
  | sentLine (bytes : List Nat)
  | exportRun
  | sentCall (msg : Nat × List Val × List (String × Val))
  | authFail
  | closedConn
deriving DecidableEq

/-- A netrpc connection around the handshake: `self.id`, `self.key`,
`self.master`, whether `onRecv` has been replaced by `_onRecvRPC`
(`established`), whether `close()` ran, the buffer/parser state
(`self.stream` and `self.next_rpc_size` live in `pst`), and the event
trace. -/
structure HsConn where
  ident : List Nat
  key : List Nat
  master : Bool
  established : Bool
  closed : Bool
  pst : PState
  events : List HsEvent
deriving DecidableEq

/-- `'RPC:%s' % id` (no CRLF): the line a connector expects. -/
def rpcLine (ident : List Nat) : List Nat := [82, 80, 67, 58] ++ ident

/-- `NetRPCSocket._rigAuthentication` (netrpc.py): called from
`onAccept`; marks the socket as master and sends `'RPC:%s\r\n' % id`. -/
def rigAuthentication (c : HsConn) : HsConn :=
  { c with master := true,
           events := c.events ++ [.sentLine (rpcLine c.ident ++ crlfBytes)] }

/-- The call triple `(0, (None, None, None, None, None), {})` pickled by
`_runSetup` to announce export completion. -/
def exportDoneMsg : Nat × List Val × List (String × Val) :=
  (0, [Val.none, Val.none, Val.none, Val.none, Val.none], [])

/-- `NetRPCSocket._runSetup` (netrpc.py): run `onExport`, then send the
completion control call. -/
def runSetupConn (c : HsConn) : HsConn :=
  { c with events := c.events ++ [.exportRun, .sentCall exportDoneMsg] }

/-- `NetRPCSocket.onRecv` (netrpc.py), including the established-mode
dispatch to `_onRecvRPC` after `self.onRecv` has been replaced.  Before
establishment, the first complete CRLF line is examined: the master
compares it with `self.key`, strips it, runs `_runSetup` and reprocesses
the residual buffered bytes as RPC frames (`self.onRecv('')`); the
connector compares it with `'RPC:%s' % self.id`, replies with its key
line and runs `_runSetup` (residual bytes stay buffered).  A mismatched
line triggers `onAuthFail` then `close()`. -/
def hsOnRecv (c : HsConn) (data : List Nat) : HsConn :=
  if c.established then { c with pst := feedP c.pst data }
  else
    match pyFind crlfBytes (c.pst.stream ++ data) with
    | Option.none =>
      { c with pst := ⟨c.pst.stream ++ data, c.pst.nextSize, c.pst.dispatched⟩ }
    | some r =>
      if c.master then
        if (c.pst.stream ++ data).take r = c.key then
          ⟨c.ident, c.key, c.master, true, c.closed,
            runRPC ⟨(c.pst.stream ++ data).drop (r + 2), c.pst.nextSize,
              c.pst.dispatched⟩,
            c.events ++ [.exportRun, .sentCall exportDoneMsg]⟩
        else
          ⟨c.ident, c.key, c.master, c.established, true,
            ⟨c.pst.stream ++ data, c.pst.nextSize, c.pst.dispatched⟩,
            c.events ++ [.authFail, .closedConn]⟩
      else
        if (c.pst.stream ++ data).take r = rpcLine c.ident then
          ⟨c.ident, c.key, c.master, true, c.closed,
            ⟨(c.pst.stream ++ data).drop (r + 2), c.pst.nextSize,
              c.pst.dispatched⟩,
            c.events ++ [.sentLine (c.key ++ crlfBytes), .exportRun,
              .sentCall exportDoneMsg]⟩
        else
          ⟨c.ident, c.key, c.master, c.established, true,
            ⟨c.pst.stream ++ data, c.pst.nextSize, c.pst.dispatched⟩,
            c.events ++ [.authFail, .closedConn]⟩

theorem hsOnRecv_master_success (c : HsConn) (data : List Nat) (r : Nat)
    (h1 : c.established = false) (h2 : c.master = true)
    (h3 : pyFind crlfBytes (c.pst.stream ++ data) = some r)
    (h4 : (c.pst.stream ++ data).take r = c.key) :
    hsOnRecv c data = ⟨c.ident, c.key, c.master, true, c.closed,
      runRPC ⟨(c.pst.stream ++ data).drop (r + 2), c.pst.nextSize,
        c.pst.dispatched⟩,
      c.events ++ [.exportRun, .sentCall exportDoneMsg]⟩ := by
  unfold hsOnRecv
  rw [if_neg (by simp [h1]), h3]
  simp [h2, h4]

theorem hsOnRecv_master_fail (c : HsConn) (data : List Nat) (r : Nat)
    (h1 : c.established = false) (h2 : c.master = true)
    (h3 : pyFind crlfBytes (c.pst.stream ++ data) = some r)
    (h4 : (c.pst.stream ++ data).take r ≠ c.key) :
    hsOnRecv c data = ⟨c.ident, c.key, c.master, c.established, true,
      ⟨c.pst.stream ++ data, c.pst.nextSize, c.pst.dispatched⟩,
      c.events ++ [.authFail, .closedConn]⟩ := by
  unfold hsOnRecv
  rw [if_neg (by simp [h1]), h3]
  simp [h2, h4]

theorem hsOnRecv_connector_success (c : HsConn) (data : List Nat) (r : Nat)
    (h1 : c.established = false) (h2 : c.master = false)
    (h3 : pyFind crlfBytes (c.pst.stream ++ data) = some r)
    (h4 : (c.pst.stream ++ data).take r = rpcLine c.ident) :
    hsOnRecv c data = ⟨c.ident, c.key, c.master, true, c.closed,
      ⟨(c.pst.stream ++ data).drop (r + 2), c.pst.nextSize, c.pst.dispatched⟩,
      c.events ++ [.sentLine (c.key ++ crlfBytes), .exportRun,
        .sentCall exportDoneMsg]⟩ := by
  unfold hsOnRecv
  rw [if_neg (by simp [h1]), h3]
  simp [h2, h4]

/-- Claim C6: the acceptor (master) connection sends exactly
`'RPC:' + identification + CRLF` upon accept; upon later receiving a
complete line equal to its configured key it becomes established,
strips the consumed bytes, invokes the local export routine and
reprocesses the residual buffered bytes as RPC frames (the parser runs
on the residual immediately); any other complete line triggers
`onAuthFail` followed by `close()`, with no retry — the connection is
left closed and unestablished. -/
theorem netrpc_master_handshake :
    (∀ c : HsConn, rigAuthentication c = ⟨c.ident, c.key, true, c.established,
      c.closed, c.pst,
      c.events ++ [.sentLine ([82, 80, 67, 58] ++ c.ident ++ crlfBytes)]⟩)
    ∧ (∀ (c : HsConn) (data : List Nat) (r : Nat),
        c.established = false → c.master = true →
        pyFind crlfBytes (c.pst.stream ++ data) = some r →
        (c.pst.stream ++ data).take r = c.key →
        hsOnRecv c data = ⟨c.ident, c.key, c.master, true, c.closed,
          runRPC ⟨(c.pst.stream ++ data).drop (r + 2), c.pst.nextSize,
            c.pst.dispatched⟩,
          c.events ++ [.exportRun, .sentCall exportDoneMsg]⟩)
    ∧ (∀ (c : HsConn) (data : List Nat) (r : Nat),
        c.established = false → c.master = true →
        pyFind crlfBytes (c.pst.stream ++ data) = some r →
        (c.pst.stream ++ data).take r ≠ c.key →
        hsOnRecv c data = ⟨c.ident, c.key, c.master, c.established, true,
          ⟨c.pst.stream ++ data, c.pst.nextSize, c.pst.dispatched⟩,
          c.events ++ [.authFail, .closedConn]⟩) := by
  refine ⟨fun c => rfl, ?_, ?_⟩
  · intro c data r h1 h2 h3 h4
    exact hsOnRecv_master_success c data r h1 h2 h3 h4
  · intro c data r h1 h2 h3 h4
    exact hsOnRecv_master_fail c data r h1 h2 h3 h4

/-- Witness for `netrpc_master_handshake`: identification `[65]`, key
`[107]`; accept sends `'RPC:' + [65] + CRLF`; receiving the key line
establishes the connection and runs the export hook; receiving a wrong
line fails authentication and closes. -/
theorem netrpc_master_handshake_witness :
    hsOnRecv ⟨[65], [107], true, false, false, ⟨[], 0, []⟩, []⟩ [107, 13, 10] =
        ⟨[65], [107], true, true, false, ⟨[], 0, []⟩,
          [.exportRun, .sentCall exportDoneMsg]⟩
      ∧ hsOnRecv ⟨[65], [107], true, false, false, ⟨[], 0, []⟩, []⟩ [106, 13, 10] =
        ⟨[65], [107], true, false, true, ⟨[106, 13, 10], 0, []⟩,
          [.authFail, .closedConn]⟩ := by
  constructor
  · have h := netrpc_master_handshake.2.1
      ⟨[65], [107], true, false, false, ⟨[], 0, []⟩, []⟩ [107, 13, 10] 1
      rfl rfl (by decide) (by decide)
    rw [h]
    decide
  · have h := netrpc_master_handshake.2.2
      ⟨[65], [107], true, false, false, ⟨[], 0, []⟩, []⟩ [106, 13, 10] 1
      rfl rfl (by decide) (by decide)
    rw [h]
    rfl

/-- Claim C8: after authentication succeeds, each side (master and
connector alike) runs its local export routine and then sends exactly
one control call — index 0 with every field the absent-value marker
`None`; and whenever `_export_callback` receives a control call whose
name is `None`, it invokes the local import-ready notification and
leaves the import table unchanged. -/
theorem netrpc_export_complete_control :
    (∀ (c : HsConn) (data : List Nat) (r : Nat),
        c.established = false → c.master = true →
        pyFind crlfBytes (c.pst.stream ++ data) = some r →
        (c.pst.stream ++ data).take r = c.key →
        (hsOnRecv c data).events =
          c.events ++ [.exportRun, .sentCall exportDoneMsg])
    ∧ (∀ (c : HsConn) (data : List Nat) (r : Nat),
        c.established = false → c.master = false →
        pyFind crlfBytes (c.pst.stream ++ data) = some r →
        (c.pst.stream ++ data).take r = rpcLine c.ident →
        (hsOnRecv c data).events = c.events ++
          [.sentLine (c.key ++ crlfBytes), .exportRun, .sentCall exportDoneMsg])
    ∧ exportDoneMsg = (0, [Val.none, Val.none, Val.none, Val.none, Val.none], [])
    ∧ (∀ (ic : IConn) (ar : List String) (ad : List (String × Val)) (av ak : Bool),
        exportCallback ic Option.none ar ad av ak = (ic, true)) := by
  refine ⟨?_, ?_, rfl, fun ic ar ad av ak => rfl⟩
  · intro c data r h1 h2 h3 h4
    rw [hsOnRecv_master_success c data r h1 h2 h3 h4]
  · intro c data r h1 h2 h3 h4
    rw [hsOnRecv_connector_success c data r h1 h2 h3 h4]

/-- Witness for `netrpc_export_complete_control`: the connector with
identification `[65]` and key `[107]` receiving `'RPC:' + [65] + CRLF`
replies with its key line, runs the export hook, and sends the single
all-`None` control call. -/
theorem netrpc_export_complete_control_witness :
    (hsOnRecv ⟨[65], [107], false, false, false, ⟨[], 0, []⟩, []⟩
        [82, 80, 67, 58, 65, 13, 10]).events =
      [.sentLine ([107] ++ crlfBytes), .exportRun, .sentCall exportDoneMsg] := by
  have h := netrpc_export_complete_control.2.1
    ⟨[65], [107], false, false, false, ⟨[], 0, []⟩, []⟩
    [82, 80, 67, 58, 65, 13, 10] 5 rfl rfl (by decide) (by decide)
  rw [h]
  rfl
